import Mathlib

set_option autoImplicit false

namespace RethEngine

/-- Block hashes (Rust `B256` from reth_primitives), abstracted as natural numbers. -/
abbrev B256 := Nat

/-- Rust `std::task::Poll`: either a ready value or pending. -/
inductive Poll (α : Type) where
  | ready (a : α)
  | pending
deriving DecidableEq

/-- Rust enum `DownloadRequest` (engine.rs 230–234): a request to download blocks from
the network, either an explicit list of hashes or a contiguous range. -/
inductive DownloadRequest where
  | blocks (hashes : List B256)
  | range (start : B256) (count : Nat)
deriving DecidableEq

/-- Modelled from the spec: `DownloadAction` lives in `crate::download`, which is not
among the sources; engine.rs only constructs `DownloadAction::Download(req)`. -/
inductive DownloadAction where
  | download (req : DownloadRequest)
deriving DecidableEq

/-- Modelled from the spec: `DownloadOutcome` lives in `crate::download`, which is not
among the sources; per the spec the downloader asynchronously produces batches of
fully-sealed blocks, and engine.rs consumes exactly `DownloadOutcome::Blocks`. -/
inductive DownloadOutcome (Block : Type) where
  | blocks (bs : List Block)
deriving DecidableEq

/-- Modelled from the spec: `OrchestratorState` lives in `crate::chain`, which is not
among the sources; the spec data model gives the two modes, Live and PipelineSync. -/
inductive OrchestratorState where
  | live
  | pipelineSync
deriving DecidableEq

/-- Modelled from the spec: `FromOrchestrator` lives in `crate::chain`, which is not
among the sources; the spec describes it as a transition notification carrying the
new orchestrating mode. -/
inductive FromOrchestrator where
  | modeChange (mode : OrchestratorState)
deriving DecidableEq

/-- Modelled from the spec: `HandlerEvent` lives in `crate::chain`, which is not among
the sources; engine.rs matches on its variants `Pipeline(target)` and `Event(ev)`
(spec: Escalation is PipelineTarget or DomainEvent). -/
inductive HandlerEvent (T : Type) where
  | pipeline (target : B256)
  | event (ev : T)
deriving DecidableEq

/-- Rust enum `RequestHandlerEvent<T>` (engine.rs 222–227). -/
inductive RequestHandlerEvent (T : Type) where
  | idle
  | handlerEvent (ev : HandlerEvent T)
  | download (req : DownloadRequest)
deriving DecidableEq

/-- Rust enum `FromEngine<Req>` (engine.rs 209–214), with downloaded blocks
(`Vec<SealedBlockWithSenders>`) abstracted by the type parameter `Block`. -/
inductive FromEngine (Req Block : Type) where
  | event (ev : FromOrchestrator)
  | request (req : Req)
  | downloadedBlocks (blocks : List Block)
deriving DecidableEq

/-- The `EngineRequestHandler` trait (engine.rs 111–122) as a deterministic state
machine over an abstract state type `S`: `on_event` feeds an event into the handler,
`poll` advances it and yields at most one `RequestHandlerEvent`. -/
structure EngineRequestHandler (S T Req Block : Type) where
  onEvent : S → FromEngine Req Block → S
  poll : S → S × Poll (RequestHandlerEvent T)

/-- The `BlockDownloader` capability (`crate::download`, not among the sources) as a
deterministic state machine: `on_action` accepts a download action, `poll` may yield a
completed batch of blocks. -/
structure BlockDownloader (D Block : Type) where
  onAction : D → DownloadAction → D
  poll : D → D × Poll (DownloadOutcome Block)

/-- Result of the inner drain loop of `EngineHandler::poll` (engine.rs 62–88):
either a `HandlerEvent` is bubbled up (`return Poll::Ready(..)`), or the loop
breaks on `Idle` / `Poll::Pending`, or the fuel ran out before the loop ended. -/
inductive DrainResult (T : Type) where
  | bubbled (ev : HandlerEvent T)
  | stopped
  | fuelOut
deriving DecidableEq

/-- The inner drain loop of `EngineHandler::poll` (engine.rs 62–88): poll the request
handler; a `Download` result is forwarded to the downloader at once and the handler is
polled again; `Idle` and `Poll::Pending` break the loop; a `HandlerEvent` is bubbled. -/
def drainLoop {S T Req Block D : Type} (rh : EngineRequestHandler S T Req Block)
    (dl : BlockDownloader D Block) : Nat → S → D → S × D × DrainResult T
  | 0, s, d => (s, d, .fuelOut)
  | fuel + 1, s, d =>
    match rh.poll s with
    | (s1, .ready .idle) => (s1, d, .stopped)
    | (s1, .ready (.handlerEvent ev)) => (s1, d, .bubbled ev)
    | (s1, .ready (.download req)) =>
        drainLoop rh dl fuel s1 (dl.onAction d (.download req))
    | (s1, .pending) => (s1, d, .stopped)

/-- Outcome of one iteration of the outer loop of `EngineHandler::poll`
(engine.rs 60–106): either `continue` with an updated state, or return
(`Poll::Ready` with a bubbled event, or `Poll::Pending`), or the inner fuel ran out. -/
inductive CycleResult (S Req D T : Type) where
  | next (s : S) (reqs : List Req) (d : D)
  | done (s : S) (reqs : List Req) (d : D) (r : Poll (HandlerEvent T))
  | fuelOut (s : S) (reqs : List Req) (d : D)
deriving DecidableEq

/-- One iteration of the outer loop of `EngineHandler::poll` (engine.rs 60–106):
first drain the handler; if it bubbled an event, return it; otherwise pop the next
incoming request if one is ready and hand it to the handler (skipping the downloader
this iteration); otherwise advance the downloader and hand completed blocks to the
handler; otherwise return `Poll::Pending`. The fused incoming-request stream is
modelled as a list: nonempty means `Poll::Ready(Some(req))`. -/
def engineCycle {S T Req Block D : Type} (rh : EngineRequestHandler S T Req Block)
    (dl : BlockDownloader D Block) (fuel : Nat) (s : S) (reqs : List Req) (d : D) :
    CycleResult S Req D T :=
  match drainLoop rh dl fuel s d with
  | (s1, d1, .fuelOut) => .fuelOut s1 reqs d1
  | (s1, d1, .bubbled ev) => .done s1 reqs d1 (.ready ev)
  | (s1, d1, .stopped) =>
    match reqs with
    | req :: rest => .next (rh.onEvent s1 (.request req)) rest d1
    | [] =>
      match dl.poll d1 with
      | (d2, .ready (.blocks bs)) => .next (rh.onEvent s1 (.downloadedBlocks bs)) [] d2
      | (d2, .pending) => .done s1 [] d2 .pending

/-- Result of a full `EngineHandler::poll` call: a bubbled event, no progress, or
fuel exhaustion. -/
inductive EnginePollResult (T : Type) where
  | ready (ev : HandlerEvent T)
  | pending
  | fuelOut
deriving DecidableEq

/-- The full `EngineHandler::poll` loop (engine.rs 59–107): iterate `engineCycle`
until it returns, with explicit fuel for the outer loop and the inner drain loop. -/
def enginePoll {S T Req Block D : Type} (rh : EngineRequestHandler S T Req Block)
    (dl : BlockDownloader D Block) :
    Nat → Nat → S → List Req → D → S × List Req × D × EnginePollResult T
  | 0, _, s, reqs, d => (s, reqs, d, .fuelOut)
  | outer + 1, inner, s, reqs, d =>
    match engineCycle rh dl inner s reqs d with
    | .next s1 reqs1 d1 => enginePoll rh dl outer inner s1 reqs1 d1
    | .done s1 reqs1 d1 (.ready ev) => (s1, reqs1, d1, .ready ev)
    | .done s1 reqs1 d1 .pending => (s1, reqs1, d1, .pending)
    | .fuelOut s1 reqs1 d1 => (s1, reqs1, d1, .fuelOut)

/-- Modelled from the spec: the request type of `EngineApiRequestHandler` is
`BeaconEngineMessage` (reth_beacon_consensus, not among the sources); the spec's
ExternalRequest is either a new-payload request identified by the candidate block's
hash or a fork-choice-update request identified by its target head hash. -/
inductive BeaconEngineMessage where
  | newPayload (hash : B256)
  | forkchoiceUpdated (head : B256)
deriving DecidableEq

/-- Modelled from the spec: submissions the Request Handler makes to the tree-handler
capability (submit-payload, submit-fork-choice-update, submit-downloaded-blocks). -/
inductive TreeSubmission where
  | payload (hash : B256)
  | forkchoiceUpdate (head : B256)
  | downloadedBlocks (blocks : List B256)
deriving DecidableEq

/-- Modelled from the spec: outcomes the tree-handler capability reports when polled:
a domain event for a completed payload or fork-choice update, a missing-ancestors
signal carrying the download request to issue, or a bulk-sync-required signal naming
a target block. -/
inductive TreeOutcome where
  | payloadDone (hash : B256)
  | fcuDone (head : B256)
  | missingBlocks (req : DownloadRequest)
  | bulkSyncNeeded (target : B256)
deriving DecidableEq

/-- Modelled from the spec: the domain events the Request Handler emits upward
(`type Event` of `EngineApiRequestHandler` is a stub `()` in engine.rs); the spec has
a payload-executed verdict and a fork-choice-applied verdict, identified here by the
hash of the completed operation. -/
inductive EngineEvent where
  | payloadEvent (hash : B256)
  | fcuEvent (head : B256)
deriving DecidableEq

/-- Modelled from the spec: the state of `EngineApiRequestHandler` (engine.rs 143–161
declares the fields `orchestrator_state`, `pending_payloads`, `pending_fcu` and
`next_fcu`, but with stub payload types and `todo!()` bodies). Per the spec,
`pending_payloads` is the set of in-progress payload hashes, `pending_fcu` the at
most one active fork-choice update, and `next_fcu` the single-slot coalescing queue
behind it. The owned tree-handler capability is modelled by the queue `treeOutcomes`
of outcomes it has produced but the handler has not yet consumed, the append-only log
`submissions` of everything submitted to it, and the log `completed_fcus` of
fork-choice updates whose completion the handler has processed. -/
structure EngineApiRequestHandlerState where
  orchestrator_state : OrchestratorState
  pending_payloads : List B256
  pending_fcu : Option B256
  next_fcu : Option B256
  treeOutcomes : List TreeOutcome
  submissions : List TreeSubmission
  completed_fcus : List B256
deriving DecidableEq

/-- Record a submission to the tree-handler capability in the append-only log. -/
def submitToTree (s : EngineApiRequestHandlerState) (sub : TreeSubmission) :
    EngineApiRequestHandlerState :=
  { s with submissions := s.submissions ++ [sub] }

/-- Modelled from the spec: `EngineApiRequestHandler::on_event` (a `todo!()` stub in
engine.rs 171–201). A notification updates the tracked mode. A new payload is admitted
unconditionally while the mode is Live: it is registered in `pending_payloads` and
submitted to the tree-handler capability; while PipelineSync is active it is not
admitted. A fork-choice update with one already active is coalesced into the
single-slot queue, replacing any queued-but-not-yet-active one; with none active it
becomes the active update and is submitted. Downloaded blocks are forwarded to the
tree-handler capability. -/
def engineApiOnEvent (s : EngineApiRequestHandlerState)
    (e : FromEngine BeaconEngineMessage B256) : EngineApiRequestHandlerState :=
  match e with
  | .event (.modeChange m) => { s with orchestrator_state := m }
  | .request (.newPayload h) =>
    match s.orchestrator_state with
    | .live =>
        submitToTree { s with pending_payloads := s.pending_payloads ++ [h] }
          (.payload h)
    | .pipelineSync => s
  | .request (.forkchoiceUpdated h) =>
    match s.orchestrator_state with
    | .live =>
      match s.pending_fcu with
      | some _ => { s with next_fcu := some h }
      | none => submitToTree { s with pending_fcu := some h } (.forkchoiceUpdate h)
    | .pipelineSync => s
  | .downloadedBlocks bs => submitToTree s (.downloadedBlocks bs)

/-- Modelled from the spec: `EngineApiRequestHandler::poll` (a `todo!()` stub in
engine.rs 203–206). It consumes the next tree-handler outcome: a completed payload is
removed from the pending set and bubbled as a domain event; a completed fork-choice
update clears the active slot, promotes the queued update (if any) to active and
submits it, and is bubbled as a domain event; a missing-ancestors signal is turned
into a download request with the originating pending entry left outstanding; a
bulk-sync-required signal is bubbled as a pipeline target with every pending entry
left untouched. With no outcome ready the handler reports Idle. -/
def engineApiPoll (s : EngineApiRequestHandlerState) :
    EngineApiRequestHandlerState × Poll (RequestHandlerEvent EngineEvent) :=
  match s.treeOutcomes with
  | [] => (s, .ready .idle)
  | o :: rest =>
    match o with
    | .payloadDone h =>
        ({ s with treeOutcomes := rest,
                  pending_payloads := s.pending_payloads.erase h },
         .ready (.handlerEvent (.event (.payloadEvent h))))
    | .fcuDone h =>
      match s.next_fcu with
      | some nxt =>
          ({ s with treeOutcomes := rest, pending_fcu := some nxt, next_fcu := none,
                    submissions := s.submissions ++ [.forkchoiceUpdate nxt],
                    completed_fcus := s.completed_fcus ++ [h] },
           .ready (.handlerEvent (.event (.fcuEvent h))))
      | none =>
          ({ s with treeOutcomes := rest, pending_fcu := none,
                    completed_fcus := s.completed_fcus ++ [h] },
           .ready (.handlerEvent (.event (.fcuEvent h))))
    | .missingBlocks req => ({ s with treeOutcomes := rest }, .ready (.download req))
    | .bulkSyncNeeded t =>
        ({ s with treeOutcomes := rest }, .ready (.handlerEvent (.pipeline t)))

/-- The spec-modelled `EngineApiRequestHandler` packaged as an `EngineRequestHandler`
(the trait implementation of engine.rs 163–207). -/
def engineApiRequestHandler :
    EngineRequestHandler EngineApiRequestHandlerState EngineEvent BeaconEngineMessage
      B256 where
  onEvent := engineApiOnEvent
  poll := engineApiPoll

/-- Inputs driving the Request Handler state machine: an inbound event delivered by
the Engine Handler, an outcome asynchronously produced by the tree-handler
capability, or one `poll` invocation. -/
inductive RhInput where
  | inbound (e : FromEngine BeaconEngineMessage B256)
  | treeProduces (o : TreeOutcome)
  | pollStep
deriving DecidableEq

/-- One step of the Request Handler under an input: inbound events go through
`on_event`, a produced tree outcome is queued, and a poll step consumes one. -/
def rhStep (s : EngineApiRequestHandlerState) (i : RhInput) :
    EngineApiRequestHandlerState :=
  match i with
  | .inbound e => engineApiOnEvent s e
  | .treeProduces o => { s with treeOutcomes := s.treeOutcomes ++ [o] }
  | .pollStep => (engineApiPoll s).1

/-- Well-formedness of an input in a state: the tree-handler capability honors its
contract and reports completion only for an operation actually outstanding (the spec
treats a completion for a request never submitted as a fatal contract violation). -/
def wfInput (s : EngineApiRequestHandlerState) (i : RhInput) : Bool :=
  match i with
  | .pollStep =>
    match s.treeOutcomes with
    | .fcuDone h :: _ => s.pending_fcu == some h
    | .payloadDone h :: _ => s.pending_payloads.contains h
    | _ => true
  | _ => true

/-- The initial Request Handler state: Live mode, nothing pending, nothing queued. -/
def rhInit : EngineApiRequestHandlerState :=
  ⟨.live, [], none, none, [], [], []⟩

/-- States of the Request Handler reachable from the initial state under well-formed
inputs. -/
inductive Reachable : EngineApiRequestHandlerState → Prop where
  | init : Reachable rhInit
  | step (s : EngineApiRequestHandlerState) (i : RhInput) :
      Reachable s → wfInput s i = true → Reachable (rhStep s i)

/-- The number of fork-choice-update submissions made to the tree-handler capability. -/
def fcuSubmitCount (s : EngineApiRequestHandlerState) : Nat :=
  (s.submissions.filter fun sub =>
    match sub with
    | .forkchoiceUpdate _ => true
    | _ => false).length

/-- The number of fork-choice-update submissions still outstanding to the tree-handler
capability: submitted and not yet observed complete. -/
def fcuOutstanding (s : EngineApiRequestHandlerState) : Nat :=
  fcuSubmitCount s - s.completed_fcus.length

/-- A scripted request handler for concrete scenarios: the state is the list of poll
results still to be produced, paired with the log of events delivered via `on_event`. -/
def scriptedHandler (T Req Block : Type) :
    EngineRequestHandler
      (List (Poll (RequestHandlerEvent T)) × List (FromEngine Req Block)) T Req Block
    where
  onEvent := fun s e => (s.1, s.2 ++ [e])
  poll := fun s =>
    match s.1 with
    | [] => (([], s.2), .pending)
    | r :: rest => ((rest, s.2), r)

/-- A scripted downloader for concrete scenarios: the state is the list of poll
outcomes still to be produced, paired with the log of download actions received. -/
def scriptedDownloader (Block : Type) :
    BlockDownloader (List (Poll (DownloadOutcome Block)) × List DownloadAction) Block
    where
  onAction := fun d a => (d.1, d.2 ++ [a])
  poll := fun d =>
    match d.1 with
    | [] => (([], d.2), .pending)
    | r :: rest => ((rest, d.2), r)

/-- C1: in an `EngineHandler::poll` cycle where the drained request handler reports no
escalation (the drain stops without bubbling), a new external request is queued and a
completed download batch is ready at the downloader, the cycle hands the external
request to the request handler and does not consume the download batch: the resulting
downloader state is exactly the post-drain state `d1` — the downloader is never
polled — and the handler was drained before the request was delivered. -/
theorem request_priority_over_downloads {S T Req Block D : Type}
    (rh : EngineRequestHandler S T Req Block) (dl : BlockDownloader D Block)
    (fuel : Nat) (s s1 : S) (d d1 d2 : D) (req : Req) (rest : List Req)
    (bs : List Block)
    (hdrain : drainLoop rh dl fuel s d = (s1, d1, .stopped))
    (hready : dl.poll d1 = (d2, .ready (.blocks bs))) :
    engineCycle rh dl fuel s (req :: rest) d =
      .next (rh.onEvent s1 (.request req)) rest d1 := by
  unfold engineCycle
  rw [hdrain]

/-- Witness for C1 at a concrete scenario: the handler script is immediately idle, one
request `7` is queued, and the downloader has the batch `[9]` ready; the cycle
delivers the request and leaves the batch unconsumed. -/
theorem request_priority_over_downloads_witness :
    drainLoop (scriptedHandler Nat Nat Nat) (scriptedDownloader Nat) 1
        ([.ready .idle], []) ([.ready (.blocks [9])], []) =
      ((([] : List (Poll (RequestHandlerEvent Nat))), ([] : List (FromEngine Nat Nat))),
        ([.ready (.blocks [9])], []), .stopped) ∧
    engineCycle (scriptedHandler Nat Nat Nat) (scriptedDownloader Nat) 1
        ([.ready .idle], []) [7] ([.ready (.blocks [9])], []) =
      .next (([], [.request 7])) [] ([.ready (.blocks [9])], []) := by
  refine ⟨by decide, ?_⟩
  exact request_priority_over_downloads (scriptedHandler Nat Nat Nat)
    (scriptedDownloader Nat) 1 ([.ready .idle], []) (([], [])) ([.ready (.blocks [9])], [])
    ([.ready (.blocks [9])], []) ([], []) 7 [] [9] (by decide) (by decide)

/-- C5: within one `EngineHandler::poll` cycle, (a) a `Download` result produced by
the request handler is forwarded to the downloader immediately and the handler is
polled again; (b) the inner drain loop stops at a poll step exactly when the handler
reports `Idle` or has no output ready (`Poll::Pending`), leaving the downloader
untouched at that step; (c) a bubbled result ends the cycle immediately: it is
returned to the caller with the incoming requests and the downloader exactly as the
drain left them — neither is polled further. -/
theorem download_forward_and_bubble_immediate {S T Req Block D : Type}
    (rh : EngineRequestHandler S T Req Block) (dl : BlockDownloader D Block)
    (fuel : Nat) (s s1 : S) (d : D) (req : DownloadRequest)
    (hdown : rh.poll s = (s1, .ready (.download req)))
    (si si1 : S) (hidle : rh.poll si = (si1, .ready .idle))
    (sp sp1 : S) (hpend : rh.poll sp = (sp1, .pending))
    (fb : Nat) (sb sb1 : S) (db db1 : D) (ev : HandlerEvent T) (reqs : List Req)
    (hbub : drainLoop rh dl fb sb db = (sb1, db1, .bubbled ev)) :
    drainLoop rh dl (fuel + 1) s d =
        drainLoop rh dl fuel s1 (dl.onAction d (.download req)) ∧
    drainLoop rh dl (fuel + 1) si d = (si1, d, .stopped) ∧
    drainLoop rh dl (fuel + 1) sp d = (sp1, d, .stopped) ∧
    engineCycle rh dl fb sb reqs db = .done sb1 reqs db1 (.ready ev) := by
  refine ⟨?_, ?_, ?_, ?_⟩
  · conv_lhs => rw [drainLoop]
    rw [hdown]
  · conv_lhs => rw [drainLoop]
    rw [hidle]
  · conv_lhs => rw [drainLoop]
    rw [hpend]
  · unfold engineCycle
    rw [hbub]

/-- Witness for C5 at concrete scripts: a handler that first asks for a download of
block `3` and then bubbles the domain event `11`, with a fresh downloader. -/
theorem download_forward_and_bubble_immediate_witness :
    drainLoop (scriptedHandler Nat Nat Nat) (scriptedDownloader Nat) 2
        ([.ready (.download (.blocks [3])),
          .ready (.handlerEvent (.event 11))], []) ([], []) =
      drainLoop (scriptedHandler Nat Nat Nat) (scriptedDownloader Nat) 1
        ([.ready (.handlerEvent (.event 11))], [])
        ((scriptedDownloader Nat).onAction ([], []) (.download (.blocks [3]))) ∧
    drainLoop (scriptedHandler Nat Nat Nat) (scriptedDownloader Nat) 1
        ([.ready .idle], []) ([], []) = (([], []), ([], []), .stopped) ∧
    drainLoop (scriptedHandler Nat Nat Nat) (scriptedDownloader Nat) 1
        ([], []) ([], []) = (([], []), ([], []), .stopped) ∧
    engineCycle (scriptedHandler Nat Nat Nat) (scriptedDownloader Nat) 1
        ([.ready (.handlerEvent (.event 11))], []) [7] ([], []) =
      .done (([], [])) [7] (([], [])) (.ready (.event 11)) :=
  download_forward_and_bubble_immediate (scriptedHandler Nat Nat Nat)
    (scriptedDownloader Nat) 1
    ([.ready (.download (.blocks [3])), .ready (.handlerEvent (.event 11))], [])
    ([.ready (.handlerEvent (.event 11))], []) ([], []) (.blocks [3]) (by decide)
    ([.ready .idle], []) ([], []) (by decide)
    ([], []) ([], []) (by decide)
    1 ([.ready (.handlerEvent (.event 11))], []) ([], []) ([], []) ([], [])
    (.event 11) [7] (by decide)

/-- C6: an `EngineHandler::poll` cycle returns `Poll::Pending` (no progress, no event)
exactly when the drained request handler bubbled nothing (the drain stopped), no
external request is available on the incoming stream, and the downloader produced no
completed batch. -/
theorem pending_iff_nothing_ready {S T Req Block D : Type}
    (rh : EngineRequestHandler S T Req Block) (dl : BlockDownloader D Block)
    (fuel : Nat) (s s1 : S) (reqs reqs1 : List Req) (d d2 : D) :
    engineCycle rh dl fuel s reqs d = .done s1 reqs1 d2 .pending ↔
      (reqs = [] ∧ reqs1 = [] ∧
        ∃ d1, drainLoop rh dl fuel s d = (s1, d1, .stopped) ∧
          dl.poll d1 = (d2, .pending)) := by
  unfold engineCycle
  rcases hd : drainLoop rh dl fuel s d with ⟨sd, dd, r⟩
  cases r with
  | bubbled ev => simp
  | fuelOut => simp
  | stopped =>
    cases reqs with
    | cons req rest => simp
    | nil =>
      rcases hp : dl.poll dd with ⟨dp, out⟩
      cases out with
      | ready o =>
        cases o with
        | blocks bs => simp [hp]
      | pending =>
        simp only [hp]
        constructor
        · intro h
          simp only [CycleResult.done.injEq, Prod.mk.injEq] at h
          obtain ⟨rfl, h2, rfl, -⟩ := h
          exact ⟨trivial, h2.symm, dd, rfl, hp⟩
        · rintro ⟨-, rfl, d1, hdrain, hpoll⟩
          simp only [Prod.mk.injEq] at hdrain
          obtain ⟨rfl, rfl, -⟩ := hdrain
          rw [hp] at hpoll
          simp only [Prod.mk.injEq] at hpoll
          obtain ⟨rfl, -⟩ := hpoll
          rfl

/-- Witness for C6 at a concrete scenario: an idle handler, no queued request and a
downloader with nothing ready — the cycle reports `Poll::Pending`; conversely the
equality certifies that nothing was ready. -/
theorem pending_iff_nothing_ready_witness :
    engineCycle (scriptedHandler Nat Nat Nat) (scriptedDownloader Nat) 1
        ([.ready .idle], []) [] ([], []) =
      .done (([], [])) [] (([], [])) .pending :=
  (pending_iff_nothing_ready (scriptedHandler Nat Nat Nat) (scriptedDownloader Nat) 1
      ([.ready .idle], []) (([], [])) [] [] ([], []) ([], [])).mpr
    ⟨rfl, rfl, ([], []), by decide, by decide⟩

/-- Deliver a list of fork-choice-update requests to the Request Handler in order. -/
def deliverFcus (s : EngineApiRequestHandlerState) (hs : List B256) :
    EngineApiRequestHandlerState :=
  hs.foldl (fun st h => engineApiOnEvent st (.request (.forkchoiceUpdated h))) s

/-- While a fork-choice update is active and the mode is Live, delivering a sequence
of fork-choice-update requests only rewrites the single coalescing slot: the final
state is the original one with `next_fcu` set to the last delivered target. -/
theorem deliverFcus_active (hs : List B256) :
    ∀ (s : EngineApiRequestHandlerState) (a l : B256),
      s.orchestrator_state = .live → s.pending_fcu = some a →
      hs.getLast? = some l →
      deliverFcus s hs = { s with next_fcu := some l } := by
  induction hs with
  | nil =>
    intro s a l _ _ hl
    simp at hl
  | cons h t ih =>
    intro s a l hmode hp hl
    have hstep : engineApiOnEvent s (.request (.forkchoiceUpdated h)) =
        { s with next_fcu := some h } := by
      simp [engineApiOnEvent, hmode, hp]
    have hfold : deliverFcus s (h :: t) =
        deliverFcus { s with next_fcu := some h } t := by
      unfold deliverFcus
      rw [List.foldl_cons, hstep]
    cases t with
    | nil =>
      simp at hl
      subst hl
      rw [hfold]
      rfl
    | cons h2 t2 =>
      rw [hfold, ih { s with next_fcu := some h } a l hmode hp
        (by rw [← List.getLast?_cons_cons (a := h)]; exact hl)]

/-- C2: while one fork-choice update `a` is active, delivering any sequence of
fork-choice-update requests submits none of them to the tree-handler capability (the
submission log is unchanged) and leaves only the most recently delivered target in
the coalescing slot; once the active update completes, exactly that latest target is
promoted and submitted, so over the whole run a fork-choice submission belongs to the
log exactly when it was already there or is the latest target — every intermediate
request is never submitted. -/
theorem fcu_coalescing (s : EngineApiRequestHandlerState) (a l : B256) (hs : List B256)
    (hmode : s.orchestrator_state = .live)
    (hp : s.pending_fcu = some a)
    (hout : s.treeOutcomes = [])
    (hl : hs.getLast? = some l) :
    (deliverFcus s hs).submissions = s.submissions ∧
    (deliverFcus s hs).next_fcu = some l ∧
    (rhStep (rhStep (deliverFcus s hs) (.treeProduces (.fcuDone a)))
        .pollStep).submissions = s.submissions ++ [.forkchoiceUpdate l] ∧
    (rhStep (rhStep (deliverFcus s hs) (.treeProduces (.fcuDone a)))
        .pollStep).pending_fcu = some l ∧
    ∀ h : B256,
      TreeSubmission.forkchoiceUpdate h ∈
          (rhStep (rhStep (deliverFcus s hs) (.treeProduces (.fcuDone a)))
            .pollStep).submissions ↔
        (TreeSubmission.forkchoiceUpdate h ∈ s.submissions ∨ h = l) := by
  rw [deliverFcus_active hs s a l hmode hp hl]
  refine ⟨rfl, rfl, ?_, ?_, ?_⟩ <;>
    simp [rhStep, engineApiPoll, hout]

/-- Witness for C2: with update `1` active, delivering the targets `2`, `3`, `4`
submits nothing; after the active update completes, exactly `4` is submitted. -/
theorem fcu_coalescing_witness :
    (deliverFcus ⟨.live, [], some 1, none, [], [], []⟩ [2, 3, 4]).submissions = [] ∧
    (deliverFcus ⟨.live, [], some 1, none, [], [], []⟩ [2, 3, 4]).next_fcu = some 4 ∧
    (rhStep (rhStep (deliverFcus ⟨.live, [], some 1, none, [], [], []⟩ [2, 3, 4])
        (.treeProduces (.fcuDone 1))) .pollStep).submissions =
      [] ++ [.forkchoiceUpdate 4] := by
  obtain ⟨h1, h2, h3, -, -⟩ :=
    fcu_coalescing ⟨.live, [], some 1, none, [], [], []⟩ 1 4 [2, 3, 4] rfl rfl rfl rfl
  exact ⟨h1, h2, h3⟩

/-- C3 auxiliary invariant: in every reachable state of the Request Handler, the
number of fork-choice-update submissions made to the tree-handler capability equals
the number of processed completions, plus one exactly when an update is active. -/
theorem fcu_balance (s : EngineApiRequestHandlerState) (hr : Reachable s) :
    fcuSubmitCount s =
      s.completed_fcus.length + (if s.pending_fcu.isSome then 1 else 0) := by
  induction hr with
  | init => rfl
  | step s i hr hwf ih =>
    cases i with
    | inbound e =>
      cases e with
      | event ev =>
        cases ev with
        | modeChange m =>
          simpa [rhStep, engineApiOnEvent, fcuSubmitCount] using ih
      | request req =>
        cases req with
        | newPayload h =>
          rcases hmode : s.orchestrator_state
          · simp only [rhStep, engineApiOnEvent, hmode, submitToTree, fcuSubmitCount,
              List.filter_append] at ih ⊢
            simpa using ih
          · simpa [rhStep, engineApiOnEvent, hmode] using ih
        | forkchoiceUpdated h =>
          rcases hmode : s.orchestrator_state
          · rcases hpf : s.pending_fcu with _ | a
            · simp only [rhStep, engineApiOnEvent, hmode, hpf, submitToTree,
                fcuSubmitCount, List.filter_append] at ih ⊢
              simp [hpf] at ih
              simp [ih]
            · simp only [rhStep, engineApiOnEvent, hmode, hpf, fcuSubmitCount] at ih ⊢
              simpa [hpf] using ih
          · simpa [rhStep, engineApiOnEvent, hmode] using ih
      | downloadedBlocks bs =>
        simp only [rhStep, engineApiOnEvent, submitToTree, fcuSubmitCount,
          List.filter_append] at ih ⊢
        simpa using ih
    | treeProduces o =>
      simpa [rhStep, fcuSubmitCount] using ih
    | pollStep =>
      rcases hout : s.treeOutcomes with _ | ⟨o, rest⟩
      · simpa [rhStep, engineApiPoll, hout] using ih
      · cases o with
        | payloadDone h =>
          simp only [rhStep, engineApiPoll, hout, fcuSubmitCount] at ih ⊢
          exact ih
        | fcuDone h =>
          have hpf : s.pending_fcu = some h := by
            simpa [wfInput, hout] using hwf
          rcases hnx : s.next_fcu with _ | nxt
          · simp only [rhStep, engineApiPoll, hout, hnx, fcuSubmitCount,
              List.filter_append] at ih ⊢
            simp [hpf] at ih
            simp [ih]
          · simp only [rhStep, engineApiPoll, hout, hnx, fcuSubmitCount,
              List.filter_append] at ih ⊢
            simp [hpf] at ih
            simp [ih]
        | missingBlocks req =>
          simp only [rhStep, engineApiPoll, hout, fcuSubmitCount] at ih ⊢
          exact ih
        | bulkSyncNeeded t =>
          simp only [rhStep, engineApiPoll, hout, fcuSubmitCount] at ih ⊢
          exact ih

/-- C3: in every reachable state of the Request Handler, under any interleaving of
external requests, notifications, downloads and tree-handler outcomes, at most one
fork-choice-update submission is outstanding to the tree-handler capability. -/
theorem fcu_exclusivity (s : EngineApiRequestHandlerState) (hr : Reachable s) :
    fcuOutstanding s ≤ 1 := by
  have hb := fcu_balance s hr
  unfold fcuOutstanding
  cases hpf : s.pending_fcu <;> simp [hpf] at hb <;> omega

/-- Witness for C3 at a concrete reachable state: two fork-choice updates delivered
from the initial state — one becomes active, the other is coalesced. -/
theorem fcu_exclusivity_witness :
    Reachable (rhStep (rhStep rhInit (.inbound (.request (.forkchoiceUpdated 5))))
        (.inbound (.request (.forkchoiceUpdated 7)))) ∧
    fcuOutstanding (rhStep (rhStep rhInit (.inbound (.request (.forkchoiceUpdated 5))))
        (.inbound (.request (.forkchoiceUpdated 7)))) ≤ 1 := by
  have h1 : Reachable (rhStep rhInit (.inbound (.request (.forkchoiceUpdated 5)))) :=
    Reachable.step rhInit _ Reachable.init (by decide)
  have h2 : Reachable (rhStep (rhStep rhInit (.inbound (.request (.forkchoiceUpdated 5))))
      (.inbound (.request (.forkchoiceUpdated 7)))) :=
    Reachable.step _ _ h1 (by decide)
  exact ⟨h2, fcu_exclusivity _ h2⟩

/-- Deliver a list of new-payload requests to the Request Handler in order. -/
def deliverPayloads (s : EngineApiRequestHandlerState) (hs : List B256) :
    EngineApiRequestHandlerState :=
  hs.foldl (fun st h => engineApiOnEvent st (.request (.newPayload h))) s

/-- While the mode is Live, delivering a sequence of new-payload requests registers
all of them as pending and submits all of them, touching nothing else. -/
theorem deliverPayloads_live (hs : List B256) :
    ∀ s : EngineApiRequestHandlerState, s.orchestrator_state = .live →
      deliverPayloads s hs =
        { s with pending_payloads := s.pending_payloads ++ hs,
                 submissions := s.submissions ++ hs.map TreeSubmission.payload } := by
  induction hs with
  | nil =>
    intro s _
    simp [deliverPayloads]
  | cons h t ih =>
    intro s hmode
    have hstep : engineApiOnEvent s (.request (.newPayload h)) =
        { s with pending_payloads := s.pending_payloads ++ [h],
                 submissions := s.submissions ++ [.payload h] } := by
      simp [engineApiOnEvent, hmode, submitToTree]
    have hfold : deliverPayloads s (h :: t) =
        deliverPayloads { s with pending_payloads := s.pending_payloads ++ [h],
                                 submissions := s.submissions ++ [.payload h] } t := by
      unfold deliverPayloads
      rw [List.foldl_cons, hstep]
    have ihs := ih { s with pending_payloads := s.pending_payloads ++ [h],
                            submissions := s.submissions ++ [.payload h] } hmode
    rw [hfold, ihs]
    simp

/-- C4: delivering M new-payload requests while the mode is Live admits all of them
concurrently — the pending-payload set has size M and each one is submitted to the
tree-handler capability — without consuming any completion: no tree outcome is
processed and the completion log is untouched. -/
theorem payload_concurrent_admission (s : EngineApiRequestHandlerState)
    (hs : List B256) (hmode : s.orchestrator_state = .live)
    (hpp : s.pending_payloads = []) :
    (deliverPayloads s hs).pending_payloads.length = hs.length ∧
    (∀ h ∈ hs, TreeSubmission.payload h ∈ (deliverPayloads s hs).submissions) ∧
    (deliverPayloads s hs).treeOutcomes = s.treeOutcomes ∧
    (deliverPayloads s hs).completed_fcus = s.completed_fcus := by
  rw [deliverPayloads_live hs s hmode]
  refine ⟨by simp [hpp], ?_, rfl, rfl⟩
  intro h hh
  simp only [List.mem_append, List.mem_map]
  exact Or.inr ⟨h, hh, rfl⟩

/-- Witness for C4: three payloads delivered in Live mode are all pending and all
submitted. -/
theorem payload_concurrent_admission_witness :
    (deliverPayloads rhInit [10, 11, 12]).pending_payloads.length = 3 ∧
    TreeSubmission.payload 11 ∈ (deliverPayloads rhInit [10, 11, 12]).submissions := by
  obtain ⟨h1, h2, -, -⟩ := payload_concurrent_admission rhInit [10, 11, 12] rfl rfl
  exact ⟨h1, h2 11 (by decide)⟩

/-- C7: when the next tree-handler outcome is a bulk-sync-required signal naming
target `t`, the Request Handler bubbles exactly `Pipeline t`, and
`EngineHandler::poll` returns exactly that result at once, with the pending payloads,
the active and queued fork-choice updates and the submission log all left untouched —
nothing is removed and nothing is resubmitted — and with the incoming requests and
the downloader not polled. -/
theorem pipeline_escalation {D : Type} (dl : BlockDownloader D B256)
    (s : EngineApiRequestHandlerState) (t : B256) (rest : List TreeOutcome)
    (fuel outer : Nat) (reqs : List BeaconEngineMessage) (d : D)
    (hout : s.treeOutcomes = .bulkSyncNeeded t :: rest) :
    (engineApiPoll s).2 = .ready (.handlerEvent (.pipeline t)) ∧
    (engineApiPoll s).1.pending_payloads = s.pending_payloads ∧
    (engineApiPoll s).1.pending_fcu = s.pending_fcu ∧
    (engineApiPoll s).1.next_fcu = s.next_fcu ∧
    (engineApiPoll s).1.submissions = s.submissions ∧
    enginePoll engineApiRequestHandler dl (outer + 1) (fuel + 1) s reqs d =
      ((engineApiPoll s).1, reqs, d, .ready (.pipeline t)) := by
  have hpoll : engineApiPoll s =
      ({ s with treeOutcomes := rest }, .ready (.handlerEvent (.pipeline t))) := by
    unfold engineApiPoll
    rw [hout]
  have hdrain : drainLoop engineApiRequestHandler dl (fuel + 1) s d =
      ({ s with treeOutcomes := rest }, d, .bubbled (.pipeline t)) := by
    have hpoll2 : engineApiRequestHandler.poll s =
        ({ s with treeOutcomes := rest }, .ready (.handlerEvent (.pipeline t))) := hpoll
    conv_lhs => rw [drainLoop]
    rw [hpoll2]
  have hcycle : engineCycle engineApiRequestHandler dl (fuel + 1) s reqs d =
      .done { s with treeOutcomes := rest } reqs d (.ready (.pipeline t)) := by
    unfold engineCycle
    rw [hdrain]
  refine ⟨by rw [hpoll], by rw [hpoll], by rw [hpoll], by rw [hpoll], by rw [hpoll], ?_⟩
  conv_lhs => rw [enginePoll]
  rw [hcycle, hpoll]

/-- Witness for C7 at a concrete state: one pending payload `4`, active update `2`
and a bulk-sync-required outcome naming `30`; the engine returns `Pipeline 30` and
leaves the pending entries and the submission log untouched. -/
theorem pipeline_escalation_witness :
    (engineApiPoll ⟨.live, [4], some 2, none, [.bulkSyncNeeded 30],
        [.payload 4, .forkchoiceUpdate 2], []⟩).1.submissions =
      [.payload 4, .forkchoiceUpdate 2] ∧
    enginePoll engineApiRequestHandler (scriptedDownloader B256) 1 1
        ⟨.live, [4], some 2, none, [.bulkSyncNeeded 30],
          [.payload 4, .forkchoiceUpdate 2], []⟩ [] ([], []) =
      ((engineApiPoll ⟨.live, [4], some 2, none, [.bulkSyncNeeded 30],
          [.payload 4, .forkchoiceUpdate 2], []⟩).1, [], ([], []),
        .ready (.pipeline 30)) := by
  obtain ⟨-, -, -, -, h5, h6⟩ :=
    pipeline_escalation (scriptedDownloader B256)
      ⟨.live, [4], some 2, none, [.bulkSyncNeeded 30],
        [.payload 4, .forkchoiceUpdate 2], []⟩ 30 [] 0 0 [] ([], []) rfl
  exact ⟨by rw [h5], h6⟩

/-- A `dyn Hardfork` trait object (hardfork/mod.rs 22–29): the `Hardfork` trait
exposes a single method `name`, so a trait object is observed exactly through its
name. -/
structure DynHardfork where
  name : String
deriving DecidableEq

/-- The `impl PartialEq for dyn Hardfork` (hardfork/mod.rs 37–41): equality of two
hardfork trait objects compares their names. -/
def hardforkEq (a b : DynHardfork) : Bool :=
  a.name == b.name

/-- The `impl Hash for dyn Hardfork` (hardfork/mod.rs 45–49): hashing a hardfork
trait object delegates to its name's hash, for an arbitrary string hasher. -/
def hardforkHash (hasher : String → Nat) (a : DynHardfork) : Nat :=
  hasher a.name

/-- C8: equality and hashing of hardfork trait objects reduce to the name (the
variant tag's printed form): two objects are equal exactly when their names are
equal, the hash is exactly the hash of the name, and the implementation satisfies
the `Eq`/`Hash` contract — equality is reflexive, symmetric and transitive, and
equal objects hash alike. -/
theorem hardfork_eq_hash_by_name (a b c : DynHardfork) (hasher : String → Nat) :
    (hardforkEq a b = true ↔ a.name = b.name) ∧
    hardforkHash hasher a = hasher a.name ∧
    hardforkEq a a = true ∧
    hardforkEq a b = hardforkEq b a ∧
    (hardforkEq a b = true → hardforkEq b c = true → hardforkEq a c = true) ∧
    (hardforkEq a b = true → hardforkHash hasher a = hardforkHash hasher b) := by
  unfold hardforkEq hardforkHash
  refine ⟨beq_iff_eq, rfl, beq_self_eq_true _, ?_, ?_, ?_⟩
  · by_cases h : a.name = b.name
    · rw [h]
    · rw [beq_eq_false_iff_ne.mpr h, beq_eq_false_iff_ne.mpr (Ne.symm h)]
  · intro h1 h2
    exact beq_iff_eq.mpr ((beq_iff_eq.mp h1).trans (beq_iff_eq.mp h2))
  · intro h1
    rw [beq_iff_eq.mp h1]

/-- Witness for C8 at two concrete hardfork objects and a concrete hasher. -/
theorem hardfork_eq_hash_by_name_witness :
    (hardforkEq ⟨"Paris"⟩ ⟨"Paris"⟩ = true ↔
      (DynHardfork.mk "Paris").name = (DynHardfork.mk "Paris").name) ∧
    hardforkHash String.length ⟨"Paris"⟩ = "Paris".length :=
  ⟨(hardfork_eq_hash_by_name ⟨"Paris"⟩ ⟨"Paris"⟩ ⟨"Shanghai"⟩ String.length).1,
    (hardfork_eq_hash_by_name ⟨"Paris"⟩ ⟨"Paris"⟩ ⟨"Shanghai"⟩ String.length).2.1⟩

/-- Rust `PhantomData<T>`: a zero-sized type-level marker. -/
def PhantomData (_ : Type) : Type := Unit

/-- The `ComponentsBuilder` struct (components/builder.rs 41–49): one field per
component builder, plus the node-type marker. -/
structure ComponentsBuilder (Node PoolB PayloadB NetworkB ExecB ConsB EVB : Type) where
  pool_builder : PoolB
  payload_builder : PayloadB
  network_builder : NetworkB
  executor_builder : ExecB
  consensus_builder : ConsB
  engine_validator_builder : EVB
  _marker : PhantomData Node

/-- `ComponentsBuilder::node_types` (components/builder.rs 55–79): re-types the
node parameter, rebuilding the struct from the destructured fields with a fresh
default marker. -/
def ComponentsBuilder.node_types {Node PoolB PayloadB NetworkB ExecB ConsB EVB : Type}
    (Types : Type)
    (self : ComponentsBuilder Node PoolB PayloadB NetworkB ExecB ConsB EVB) :
    ComponentsBuilder Types PoolB PayloadB NetworkB ExecB ConsB EVB :=
  match self with
  | ⟨pool_builder, payload_builder, network_builder, evm_builder, consensus_builder,
      engine_validator_builder, _marker⟩ =>
    { executor_builder := evm_builder
      pool_builder := pool_builder
      payload_builder := payload_builder
      network_builder := network_builder
      consensus_builder := consensus_builder
      engine_validator_builder := engine_validator_builder
      _marker := () }

/-- `ComponentsBuilder::map_pool` (components/builder.rs 82–92). -/
def ComponentsBuilder.map_pool {Node PoolB PayloadB NetworkB ExecB ConsB EVB : Type}
    (self : ComponentsBuilder Node PoolB PayloadB NetworkB ExecB ConsB EVB)
    (f : PoolB → PoolB) :
    ComponentsBuilder Node PoolB PayloadB NetworkB ExecB ConsB EVB :=
  { pool_builder := f self.pool_builder
    payload_builder := self.payload_builder
    network_builder := self.network_builder
    executor_builder := self.executor_builder
    consensus_builder := self.consensus_builder
    engine_validator_builder := self.engine_validator_builder
    _marker := self._marker }

/-- `ComponentsBuilder::map_payload` (components/builder.rs 95–105). -/
def ComponentsBuilder.map_payload {Node PoolB PayloadB NetworkB ExecB ConsB EVB : Type}
    (self : ComponentsBuilder Node PoolB PayloadB NetworkB ExecB ConsB EVB)
    (f : PayloadB → PayloadB) :
    ComponentsBuilder Node PoolB PayloadB NetworkB ExecB ConsB EVB :=
  { pool_builder := self.pool_builder
    payload_builder := f self.payload_builder
    network_builder := self.network_builder
    executor_builder := self.executor_builder
    consensus_builder := self.consensus_builder
    engine_validator_builder := self.engine_validator_builder
    _marker := self._marker }

/-- `ComponentsBuilder::map_network` (components/builder.rs 108–118). -/
def ComponentsBuilder.map_network {Node PoolB PayloadB NetworkB ExecB ConsB EVB : Type}
    (self : ComponentsBuilder Node PoolB PayloadB NetworkB ExecB ConsB EVB)
    (f : NetworkB → NetworkB) :
    ComponentsBuilder Node PoolB PayloadB NetworkB ExecB ConsB EVB :=
  { pool_builder := self.pool_builder
    payload_builder := self.payload_builder
    network_builder := f self.network_builder
    executor_builder := self.executor_builder
    consensus_builder := self.consensus_builder
    engine_validator_builder := self.engine_validator_builder
    _marker := self._marker }

/-- `ComponentsBuilder::map_executor` (components/builder.rs 121–131). -/
def ComponentsBuilder.map_executor {Node PoolB PayloadB NetworkB ExecB ConsB EVB : Type}
    (self : ComponentsBuilder Node PoolB PayloadB NetworkB ExecB ConsB EVB)
    (f : ExecB → ExecB) :
    ComponentsBuilder Node PoolB PayloadB NetworkB ExecB ConsB EVB :=
  { pool_builder := self.pool_builder
    payload_builder := self.payload_builder
    network_builder := self.network_builder
    executor_builder := f self.executor_builder
    consensus_builder := self.consensus_builder
    engine_validator_builder := self.engine_validator_builder
    _marker := self._marker }

/-- `ComponentsBuilder::map_consensus` (components/builder.rs 134–144). -/
def ComponentsBuilder.map_consensus {Node PoolB PayloadB NetworkB ExecB ConsB EVB : Type}
    (self : ComponentsBuilder Node PoolB PayloadB NetworkB ExecB ConsB EVB)
    (f : ConsB → ConsB) :
    ComponentsBuilder Node PoolB PayloadB NetworkB ExecB ConsB EVB :=
  { pool_builder := self.pool_builder
    payload_builder := self.payload_builder
    network_builder := self.network_builder
    executor_builder := self.executor_builder
    consensus_builder := f self.consensus_builder
    engine_validator_builder := self.engine_validator_builder
    _marker := self._marker }

/-- C9: each `map_*` combinator applies its function to exactly the targeted
component-builder field and leaves every other field unchanged, and `node_types`
preserves every component-builder field. -/
theorem components_builder_map_frame
    {Node PoolB PayloadB NetworkB ExecB ConsB EVB : Type} (Types : Type)
    (b : ComponentsBuilder Node PoolB PayloadB NetworkB ExecB ConsB EVB)
    (fp : PoolB → PoolB) (fpl : PayloadB → PayloadB) (fn : NetworkB → NetworkB)
    (fe : ExecB → ExecB) (fc : ConsB → ConsB) :
    (b.map_pool fp).pool_builder = fp b.pool_builder ∧
    (b.map_pool fp).payload_builder = b.payload_builder ∧
    (b.map_pool fp).network_builder = b.network_builder ∧
    (b.map_pool fp).executor_builder = b.executor_builder ∧
    (b.map_pool fp).consensus_builder = b.consensus_builder ∧
    (b.map_pool fp).engine_validator_builder = b.engine_validator_builder ∧
    (b.map_payload fpl).payload_builder = fpl b.payload_builder ∧
    (b.map_payload fpl).pool_builder = b.pool_builder ∧
    (b.map_payload fpl).network_builder = b.network_builder ∧
    (b.map_payload fpl).executor_builder = b.executor_builder ∧
    (b.map_payload fpl).consensus_builder = b.consensus_builder ∧
    (b.map_payload fpl).engine_validator_builder = b.engine_validator_builder ∧
    (b.map_network fn).network_builder = fn b.network_builder ∧
    (b.map_network fn).pool_builder = b.pool_builder ∧
    (b.map_network fn).payload_builder = b.payload_builder ∧
    (b.map_network fn).executor_builder = b.executor_builder ∧
    (b.map_network fn).consensus_builder = b.consensus_builder ∧
    (b.map_network fn).engine_validator_builder = b.engine_validator_builder ∧
    (b.map_executor fe).executor_builder = fe b.executor_builder ∧
    (b.map_executor fe).pool_builder = b.pool_builder ∧
    (b.map_executor fe).payload_builder = b.payload_builder ∧
    (b.map_executor fe).network_builder = b.network_builder ∧
    (b.map_executor fe).consensus_builder = b.consensus_builder ∧
    (b.map_executor fe).engine_validator_builder = b.engine_validator_builder ∧
    (b.map_consensus fc).consensus_builder = fc b.consensus_builder ∧
    (b.map_consensus fc).pool_builder = b.pool_builder ∧
    (b.map_consensus fc).payload_builder = b.payload_builder ∧
    (b.map_consensus fc).network_builder = b.network_builder ∧
    (b.map_consensus fc).executor_builder = b.executor_builder ∧
    (b.map_consensus fc).engine_validator_builder = b.engine_validator_builder ∧
    (b.node_types Types).pool_builder = b.pool_builder ∧
    (b.node_types Types).payload_builder = b.payload_builder ∧
    (b.node_types Types).network_builder = b.network_builder ∧
    (b.node_types Types).executor_builder = b.executor_builder ∧
    (b.node_types Types).consensus_builder = b.consensus_builder ∧
    (b.node_types Types).engine_validator_builder = b.engine_validator_builder := by
  obtain ⟨p, pl, n, e, c, ev, m⟩ := b
  exact ⟨rfl, rfl, rfl, rfl, rfl, rfl, rfl, rfl, rfl, rfl, rfl, rfl, rfl, rfl, rfl,
    rfl, rfl, rfl, rfl, rfl, rfl, rfl, rfl, rfl, rfl, rfl, rfl, rfl, rfl, rfl, rfl,
    rfl, rfl, rfl, rfl, rfl⟩

/-- The `ConfigureHardforks` trait (hardfork/mod.rs 52–75), bundled as a structure of
its required methods; the implementing type `Self` and the external `ChainConfig`
and `ForkCondition` types are parameters. -/
structure ConfigureHardforks (Self ChainConfig ForkCondition : Type) where
  super_chain_mainnet_hardforks : List (Self × ForkCondition)
  init_block_hardforks : ChainConfig → List (Self × ForkCondition)
  init_paris : ChainConfig → Option (Self × ForkCondition)
  init_time_hardforks : ChainConfig → List (Self × ForkCondition)

/-- The provided method `ConfigureHardforks::init` (hardfork/mod.rs 69–74): chain the
block-based hardforks, then the optional Paris entry (an `Option` iterated as zero or
one element), then the time-based hardforks. -/
def ConfigureHardforks.init {Self ChainConfig ForkCondition : Type}
    (cfg : ConfigureHardforks Self ChainConfig ForkCondition) (config : ChainConfig) :
    List (Self × ForkCondition) :=
  cfg.init_block_hardforks config ++ (cfg.init_paris config).toList
    ++ cfg.init_time_hardforks config

/-- C10: for every chain configuration, `init` is exactly the concatenation, in
order, of the block hardforks, then the Paris entry when present (nothing when
absent), then the time hardforks; the length equation certifies that no entry is
dropped or duplicated. -/
theorem init_concatenation {Self ChainConfig ForkCondition : Type}
    (cfg : ConfigureHardforks Self ChainConfig ForkCondition) (config : ChainConfig) :
    (∀ p, cfg.init_paris config = some p →
      cfg.init config = cfg.init_block_hardforks config ++ [p]
        ++ cfg.init_time_hardforks config) ∧
    (cfg.init_paris config = none →
      cfg.init config = cfg.init_block_hardforks config
        ++ cfg.init_time_hardforks config) ∧
    (cfg.init config).length = (cfg.init_block_hardforks config).length
      + (cfg.init_paris config).toList.length
      + (cfg.init_time_hardforks config).length := by
  refine ⟨?_, ?_, ?_⟩
  · intro p hp
    simp [ConfigureHardforks.init, hp]
  · intro hp
    simp [ConfigureHardforks.init, hp]
  · simp [ConfigureHardforks.init]
    omega

/-- Witness for C10 at a concrete configuration with a Paris entry present, and one
with it absent. -/
theorem init_concatenation_witness :
    ConfigureHardforks.init
        (⟨[], fun _ => [(1, 10)], fun _ => some (2, 20), fun _ => [(3, 30)]⟩ :
          ConfigureHardforks Nat Unit Nat) () =
      [(1, 10)] ++ [(2, 20)] ++ [(3, 30)] ∧
    ConfigureHardforks.init
        (⟨[], fun _ => [(1, 10)], fun _ => none, fun _ => [(3, 30)]⟩ :
          ConfigureHardforks Nat Unit Nat) () =
      [(1, 10)] ++ [(3, 30)] :=
  ⟨(init_concatenation (⟨[], fun _ => [(1, 10)], fun _ => some (2, 20),
      fun _ => [(3, 30)]⟩ : ConfigureHardforks Nat Unit Nat) ()).1 (2, 20) rfl,
    (init_concatenation (⟨[], fun _ => [(1, 10)], fun _ => none,
      fun _ => [(3, 30)]⟩ : ConfigureHardforks Nat Unit Nat) ()).2.1 rfl⟩

end RethEngine
